import Mathlib

/-!
Verification development for the Directus relational query compiler
(`api/src/utils/apply-query.ts`): a shallow embedding of `applyQuery`,
`addJoin`/`followRelation`, `applyFilter` (join pass + where pass),
`applySort`, `applySearch`, `applyAggregate`, and the leaf helpers
`getFilterPath`, `getOperation`, `validateFilterOperator` and
`applyFilterToQuery`, together with theorems about the behaviour of the
compiler.

Modelling conventions:
- The mutable Knex query builder is embedded as an explicit state value
  (`QB`); builder methods that append joins/where clauses are modelled by
  functions returning the appended deltas, concatenated by the caller in
  program order.
- JavaScript primitive values are embedded as `Prim`/`FVal` (numbers as
  `Int` plus an explicit `NaN`; `undefined` and `null` are distinct).
- The schema-graph collaborators (`getRelationInfo`, `SchemaOverview`
  lookups, `getFilterOperatorsForType`, the date/uuid/spatial helpers)
  are external modules consumed by this file of the repository; they are
  carried as components of a context record `Ctx` and, where a concrete
  behaviour is needed, modelled from the specification (marked
  `Modelled from the spec:`).
- `generateAlias` (nanoid, 5 random lowercase letters, unique per compile
  invocation) is modelled as a deterministic fresh-name counter.
- Thrown `InvalidQueryException`s are modelled with `Except`; a JavaScript
  `TypeError` caused by a failing non-null assertion (`!`) on missing
  schema data is modelled as the error `Err.schemaFault`.
-/

namespace Directus

/-! ## JavaScript-style string primitives

Rebuilt structurally over `List Char` so that every definition reduces in
the kernel (`String.splitOn`, `String.toLower`, ... are fuel/position based
and do not). `jsSplit` matches JavaScript `String.prototype.split` with a
single-character separator. -/

def splitCharList (sep : Char) : List Char → List (List Char)
  | [] => [[]]
  | c :: rest =>
      if c = sep then [] :: splitCharList sep rest
      else match splitCharList sep rest with
           | [] => [[c]]
           | g :: gs => (c :: g) :: gs

def jsSplit (s : String) (sep : Char) : List String :=
  (splitCharList sep s.data).map (fun cs => String.mk cs)

def strStartsWith (s pre : String) : Bool :=
  pre.data.isPrefixOf s.data

def strDrop1 (s : String) : String :=
  String.mk (s.data.drop 1)

def jsToLower (s : String) : String :=
  String.mk (s.data.map Char.toLower)

def jsTrim (s : String) : String :=
  String.mk (((s.data.dropWhile Char.isWhitespace).reverse.dropWhile Char.isWhitespace).reverse)

/-- `sub` occurs as a contiguous substring of `hay`. -/
def strContainsB (hay sub : String) : Bool :=
  hay.data.tails.any (fun t => sub.data.isPrefixOf t)

def strHasChar (s : String) (c : Char) : Bool :=
  s.data.contains c

/-! ## JavaScript values -/

/-- A JavaScript scalar value. Numbers are restricted to integers, with an
explicit `pnan` for `NaN` (which still has `typeof === 'number'`). -/
inductive Prim where
  | pstr (s : String)
  | pnum (n : Int)
  | pnan
  | pbool (b : Bool)
  | pnull
  | pundef
  deriving Repr, DecidableEq

/-- A JavaScript value as it occurs in a filter-operator operand: a scalar,
an array of scalars, or (opaquely) a plain object reaching a scalar
position, which the claims never exercise. -/
inductive FVal where
  | prim (p : Prim)
  | varr (xs : List Prim)
  | vobj
  deriving Repr, DecidableEq

abbrev FVal.vstr (s : String) : FVal := FVal.prim (Prim.pstr s)
abbrev FVal.vnum (n : Int) : FVal := FVal.prim (Prim.pnum n)
abbrev FVal.vbool (b : Bool) : FVal := FVal.prim (Prim.pbool b)
abbrev FVal.vnull : FVal := FVal.prim Prim.pnull
abbrev FVal.vundef : FVal := FVal.prim Prim.pundef
abbrev FVal.vnan : FVal := FVal.prim Prim.pnan

def parseDigitsAux : List Char → Nat → Option Nat
  | [], acc => some acc
  | c :: rest, acc =>
      if c.isDigit then parseDigitsAux rest (acc * 10 + (c.toNat - 48)) else none

/-- JavaScript `Number(string)`: the empty / all-whitespace string parses to
`0`, otherwise an optionally signed run of digits, anything else `NaN`
(decimal fractions, exponents and hex forms are outside the embedded
fragment). -/
def strToNumber (s : String) : Prim :=
  match (jsTrim s).data with
  | [] => Prim.pnum 0
  | c :: rest =>
      if c = Char.ofNat 45 then
        match rest with
        | [] => Prim.pnan
        | _ => match parseDigitsAux rest 0 with
               | some n => Prim.pnum (-(n : Int))
               | none => Prim.pnan
      else match parseDigitsAux (c :: rest) 0 with
           | some n => Prim.pnum (n : Int)
           | none => Prim.pnan

/-- JavaScript `Number(scalar)`. -/
def jsToNumberP : Prim → Prim
  | .pstr s => strToNumber s
  | .pnum n => .pnum n
  | .pnan => .pnan
  | .pbool b => .pnum (if b then 1 else 0)
  | .pnull => .pnum 0
  | .pundef => .pnan

/-- JavaScript `Number(value)` on a possibly non-scalar value. -/
def jsToNumberF : FVal → FVal
  | .prim p => .prim (jsToNumberP p)
  | .varr [] => .prim (.pnum 0)
  | .varr [p] => .prim (jsToNumberP p)
  | .varr _ => .prim .pnan
  | .vobj => .prim .pnan

/-- JavaScript string coercion (template-literal interpolation). -/
def jsStringOfPrim : Prim → String
  | .pstr s => s
  | .pnum n => toString n
  | .pnan => "NaN"
  | .pbool b => if b then "true" else "false"
  | .pnull => "null"
  | .pundef => "undefined"

def joinComma : List String → String
  | [] => ""
  | [s] => s
  | s :: rest => s ++ "," ++ joinComma rest

def jsStringOfFVal : FVal → String
  | .prim p => jsStringOfPrim p
  | .varr xs => joinComma (xs.map jsStringOfPrim)
  | .vobj => "[object Object]"

/-- `value.length` as JavaScript sees it: defined for strings and arrays,
`undefined` (none) otherwise. -/
def jsLength : FVal → Option Nat
  | .prim (.pstr s) => some s.length
  | .varr xs => some xs.length
  | _ => none

/-! ## Filter trees -/

/-- A declarative filter: a plain object (ordered key/value entries), an
array (the operand of `_and` / `_or`), or a leaf value (an operator
operand or bare value). -/
inductive Filter where
  | node : List (String × Filter) → Filter
  | arr : List Filter → Filter
  | leaf : FVal → Filter
  deriving Repr

mutual
def fsize : Filter → Nat
  | .node es => 1 + fesize es
  | .arr fs => 1 + flsize fs
  | .leaf _ => 1
def fesize : List (String × Filter) → Nat
  | [] => 0
  | (_, f) :: rest => 1 + fsize f + fesize rest
def flsize : List Filter → Nat
  | [] => 0
  | f :: rest => 1 + fsize f + flsize rest
end

/-- `Object.keys(x).length === 0`: true for `{}` and `[]`; JavaScript
primitives other than strings have no own enumerable keys, and a string's
keys are its character indices. (`null`/`undefined` would throw; the
compiler never reaches them here.) -/
def jsKeysEmpty : Filter → Bool
  | .node es => es.isEmpty
  | .arr fs => fs.isEmpty
  | .leaf (.prim (.pstr s)) => s.isEmpty
  | .leaf _ => true

/-- `value.some(subFilter => Object.keys(subFilter).length === 0)` on the
operand of `_or` / `_and`. -/
def hasEmptyObj : Filter → Bool
  | .arr fs => fs.any jsKeysEmpty
  | _ => false

/-- First `Object.entries` pair of an object; for a JavaScript array the
first key is the index string `"0"`. -/
def firstEntry : Filter → Option (String × Filter)
  | .node (e :: _) => some e
  | .arr (f :: _) => some ("0", f)
  | _ => none

/-- The value handed to `applyFilterToQuery` as `compareValue`. Objects in
scalar position are opaque (`vobj`); the claims never exercise them. -/
def filterToFVal : Filter → FVal
  | .leaf v => v
  | .node _ => .vobj
  | .arr _ => .vobj

/-- `getFilterPath` (apply-query.ts): derive the dotted field path from the
key/value nesting, drilling through single-key nested objects until an
operator key (leading `_`) or a non-object value is reached. An empty
object in value position is terminal (the original would fault there; the
compiler never reaches it). -/
def getFilterPath (key : String) (value : Filter) : List String :=
  match value with
  | .node ((k1, v1) :: _) =>
      if strStartsWith k1 "_" then [key]
      else key :: getFilterPath k1 v1
  | _ => [key]

/-- `getOperation` (apply-query.ts): resolve the operator and its operand,
defaulting a bare value to `_eq`. -/
def getOperation (key : String) (value : Filter) : String × Filter :=
  if strStartsWith key "_" && key != "_and" && key != "_or" then (key, value)
  else match value with
    | .node ((k1, v1) :: _) => getOperation k1 v1
    | v => ("_eq", v)

/-! ## Schema graph (external collaborator, §6 of the design) -/

/-- `relation.meta` as used here: only the polymorphic discriminator column
is consulted. -/
structure RelMeta where
  one_collection_field : Option String := none
  deriving Repr, DecidableEq

/-- A relation definition from `schema.getRelations()`. -/
structure Relation where
  collection : String
  field : String
  related_collection : Option String := none
  meta : Option RelMeta := none
  deriving Repr, DecidableEq

/-- Relation cardinality kind as classified by `getRelationInfo`. -/
inductive RelType where
  | m2o
  | o2m
  | a2o
  | o2a
  deriving Repr, DecidableEq

structure CollectionInfo where
  primary : String
  deriving Repr, DecidableEq

structure FieldInfo where
  type : String
  special : List String := []
  deriving Repr, DecidableEq

/-- The external collaborators consumed by the compiler, carried as a
record. `relationInfo` stands for `getRelationInfo(relations, collection,
field)` (its module is not part of this slice; the spec fixes only that it
classifies a (parent collection, field) pair as one of the five kinds and
returns the matching relation). `getFilterOperatorsForType`,
`getOutputTypeForFunction`, `dateParse` (helpers.date.parse),
`uuidValidate` and the spatial helper are likewise external. -/
structure Ctx where
  relationInfo : String → String → Option (Relation × RelType) := fun _ _ => none
  getCollection : String → Option CollectionInfo := fun _ => none
  getField : String → String → Option FieldInfo := fun _ _ => none
  getFields : String → List (String × FieldInfo) := fun _ => []
  getFilterOperatorsForType : String → List String := fun _ => []
  getOutputTypeForFunction : String → String := fun _ => ""
  dateParse : Prim → Prim := id
  uuidValidate : String → Bool := fun _ => false
  stHelper : String → String → FVal → String := fun _ _ _ => ""

/-! ## The query-builder state -/

/-- `and` / `or` attachment of a where clause (`dbQuery[logical]`). -/
inductive Logic where
  | and
  | or
  deriving Repr, DecidableEq

/-- A join condition: a plain column equality, or the compound polymorphic
condition `onVal(discCol, '=', litVal) AND on(leftCol = CAST(castCol AS
CHAR(255)))`. -/
inductive JoinCond where
  | onCols (l r : String)
  | onValAndCast (discCol litVal leftCol castCol : String)
  deriving Repr, DecidableEq

/-- `leftJoin({ alias: table }, cond)`. -/
structure Join where
  aliasName : String
  table : String
  cond : JoinCond
  deriving Repr, DecidableEq

/-- The column expression on the left of `whereIn` / `whereNotIn`: a plain
column or `CAST(col AS CHAR(255))`. -/
inductive PkExpr where
  | col (s : String)
  | cast (s : String)
  deriving Repr, DecidableEq

/-- The data captured by the `subQueryBuilder(filter)` closure handed to
`whereIn`/`whereNotIn`: the related collection, its foreign-key field and
the sub-filter. `runSubQueryBuilder` below executes the closure body. -/
structure SubQuerySpec where
  collection : String
  field : String
  filt : Filter
  deriving Repr

/-- A where clause as accumulated on the builder. -/
inductive WClause where
  | wNull (l : Logic) (col : String)
  | wNotNull (l : Logic) (col : String)
  | wEq (l : Logic) (col : String) (v : FVal)
  | wNot (l : Logic) (col : String) (v : FVal)
  | wOp (l : Logic) (col : String) (op : String) (v : FVal)
  | wNotOp (l : Logic) (col : String) (op : String) (v : FVal)
  | wRaw (l : Logic) (sql : String) (binds : List FVal)
  | wIn (l : Logic) (col : String) (v : FVal)
  | wNotIn (l : Logic) (col : String) (v : FVal)
  | wBetween (l : Logic) (col : String) (v : FVal)
  | wNotBetween (l : Logic) (col : String) (v : FVal)
  | wInSub (l : Logic) (pk : PkExpr) (sub : SubQuerySpec)
  | wNotInSub (l : Logic) (pk : PkExpr) (sub : SubQuerySpec)
  | wGroup (l : Logic) (inner : List WClause)
  deriving Repr

/-- An aggregate projection `op(expr) AS asName`. -/
structure AggProj where
  op : String
  expr : String
  asName : String
  deriving Repr, DecidableEq

structure SortEntry where
  column : String
  ord : String
  deriving Repr, DecidableEq

/-- The Knex query-builder state threaded through the compiler. -/
structure QB where
  joins : List Join := []
  wheres : List WClause := []
  limit : Option Int := none
  offset : Option Int := none
  orders : List SortEntry := []
  groups : List String := []
  aggs : List AggProj := []
  selects : List (String × String) := []
  fromT : Option String := none
  deriving Repr

/-- Errors surfaced by the compiler: a thrown `InvalidQueryException`, or a
JavaScript `TypeError` from a failing non-null assertion on missing schema
data. -/
inductive Err where
  | invalidQuery (msg : String)
  | schemaFault
  deriving Repr, DecidableEq

/-! ## The alias map

`lodash.set(aliasMap, pathKeys, alias)` with the key lists used by
`addJoin` (which never writes prefix-overlapping keys within one
invocation), embedded as an association list keyed by the full key list,
overwriting on an existing key. -/

abbrev AliasMap := List (List String × String)

def amSet (m : AliasMap) (k : List String) (v : String) : AliasMap :=
  match m with
  | [] => [(k, v)]
  | (k0, v0) :: rest => if k0 = k then (k, v) :: rest else (k0, v0) :: amSet rest k v

def amGet (m : AliasMap) (k : List String) : Option String :=
  match m with
  | [] => none
  | (k0, v0) :: rest => if k0 = k then some v0 else amGet rest k

/-! ## The relation path resolver (`addJoin` / `followRelation`) -/

/-- `generateAlias` (nanoid over lowercase letters, unique per compile
invocation), modelled as a deterministic fresh-name counter. -/
def genAlias (n : Nat) : String := "alias" ++ toString n

def scopeMsg : String :=
  "You have to provide a collection scope when sorting or filtering on a many-to-any item"

/-- `followRelation` inside `addJoin` (apply-query.ts lines 124-227):
consume one path segment, emit one join per relation hop, record the
generated alias in the alias map, and descend when the relation kind and
context allow it. Returns the emitted joins, the updated alias map and the
fresh-name counter. -/
def followRelation (ctx : Ctx) (subQuery : Bool) :
    List String → String → Option String → AliasMap → Nat →
    Except Err (List Join × AliasMap × Nat)
  | [], _, _, am, ctr => .ok ([], am, ctr)
  | p0 :: rest, parentCollection, parentAlias, am, ctr =>
    let pathRoot := (jsSplit p0 ':').headD ""
    match ctx.relationInfo parentCollection pathRoot with
    | none => .ok ([], am, ctr)
    | some (relation, relationType) =>
      let aName := genAlias ctr
      let ctr2 := ctr + 1
      let relatedCollectionInfo := relation.related_collection.bind ctx.getCollection
      let am2 := amSet am (match parentAlias with
                           | some pa => pa :: p0 :: rest
                           | none => p0 :: rest) aName
      let parentRef := parentAlias.getD parentCollection
      let joins1 : Except Err (List Join) :=
        match relationType with
        | .m2o =>
            match relation.related_collection, relatedCollectionInfo with
            | some rc, some ci =>
                .ok [⟨aName, rc, .onCols (parentRef ++ "." ++ relation.field)
                                         (aName ++ "." ++ ci.primary)⟩]
            | _, _ => .error .schemaFault
        | .a2o =>
            match (jsSplit p0 ':').get? 1 with
            | none => .error (.invalidQuery scopeMsg)
            | some pathScope =>
                match ctx.getCollection pathScope, relation.meta.bind RelMeta.one_collection_field with
                | some ci, some disc =>
                    .ok [⟨aName, pathScope,
                          .onValAndCast disc pathScope
                            (parentRef ++ "." ++ relation.field)
                            (aName ++ "." ++ ci.primary)⟩]
                | _, _ => .error .schemaFault
        | .o2a =>
            match ctx.getCollection parentCollection, relation.meta.bind RelMeta.one_collection_field with
            | some ci, some disc =>
                .ok [⟨aName, relation.collection,
                      .onValAndCast disc parentCollection
                        (aName ++ "." ++ relation.field)
                        (parentRef ++ "." ++ ci.primary)⟩]
            | _, _ => .error .schemaFault
        | .o2m =>
            -- Still join o2m relations when in subquery OR when the o2m
            -- relation is not at the root level
            if subQuery || parentAlias.isSome then
              match relatedCollectionInfo with
              | some ci =>
                  .ok [⟨aName, relation.collection,
                        .onCols (parentRef ++ "." ++ ci.primary)
                                (aName ++ "." ++ relation.field)⟩]
              | none => .error .schemaFault
            else .ok []
      match joins1 with
      | .error e => .error e
      | .ok js =>
        if relationType = .m2o ∨ subQuery = true ∨ (relationType = .o2m ∧ parentAlias.isSome) then
          let parentNew : Except Err String :=
            match relationType with
            | .m2o => match relation.related_collection with
                      | some rc => .ok rc
                      | none => .error .schemaFault
            | .a2o => match (jsSplit p0 ':').get? 1 with
                      | some s => .ok s
                      | none => .error (.invalidQuery scopeMsg)
            | _ => .ok relation.collection
          match parentNew with
          | .error e => .error e
          | .ok parent =>
            if rest.isEmpty then .ok (js, am2, ctr2)
            else
              match followRelation ctx subQuery rest parent (some aName) am2 ctr2 with
              | .error e => .error e
              | .ok (js2, am3, ctr3) => .ok (js ++ js2, am3, ctr3)
        else .ok (js, am2, ctr2)

/-- `addJoin` (apply-query.ts line 124): clone the path and follow it from
the root collection. -/
def addJoin (ctx : Ctx) (subQuery : Bool) (path : List String) (collection : String)
    (am : AliasMap) (ctr : Nat) : Except Err (List Join × AliasMap × Nat) :=
  followRelation ctx subQuery path collection none am ctr

/-! ## Column resolution -/

/-- Modelled from the spec: `getColumn` of the Backend Query Target
(`get-column.js`, not under this slice) resolves a (table, column) pair to
the qualified column expression; computed-function wrappers are embedded
opaquely in the column text. -/
def getColumnStr (table column : String) : String :=
  table ++ "." ++ column

/-- Modelled from the spec (§4.2 value coercion): `stripFunction`
(`strip-function.js`, not under this slice) removes a `func(field)`
wrapper, returning the inner field name. -/
def stripFunction (s : String) : String :=
  if strHasChar s '(' then
    (jsSplit ((jsSplit s '(').getD 1 "") ')').headD ""
  else s

/-- Modelled from the spec (§4.2 / §4.3: "resolve the final column (via
alias map if the path was multi-segment)"; `get-column-path.js` is not
under this slice): walk the relation path exactly as `followRelation`
does, reading at each hop the alias that `followRelation` recorded under
the same key, and return the final `alias.field` column together with the
collection it lives on; an unresolvable path yields `none` (the caller
treats a missing `columnPath` by skipping the leaf). -/
def getColumnPathAux (ctx : Ctx) (am : AliasMap) :
    List String → String → Option String → Option (String × String)
  | [], _, _ => none
  | p0 :: rest, parentCollection, parentAlias =>
    let pathRoot := (jsSplit p0 ':').headD ""
    match ctx.relationInfo parentCollection pathRoot with
    | none =>
        if rest.isEmpty then
          match parentAlias with
          | some a => some (a ++ "." ++ p0, parentCollection)
          | none => none
        else none
    | some (relation, relationType) =>
        match amGet am (match parentAlias with
                        | some pa => pa :: p0 :: rest
                        | none => p0 :: rest) with
        | none => none
        | some aName =>
            let target : Option String :=
              match relationType with
              | .m2o => relation.related_collection
              | .a2o => (jsSplit p0 ':').get? 1
              | _ => some relation.collection
            match target with
            | none => none
            | some t =>
                if rest.isEmpty then none
                else getColumnPathAux ctx am rest t (some aName)

def getColumnPath (ctx : Ctx) (am : AliasMap) (path : List String)
    (collection : String) : Option (String × String) :=
  getColumnPathAux ctx am path collection none

/-! ## Operator validation  (`validateFilterOperator`, lines 424-443) -/

def typeErrMsg (ty op : String) : String :=
  "\"" ++ ty ++ "\" field type does not contain the \"_" ++ op ++ "\" filter operator"

def concealErrMsg (op : String) : String :=
  "Field with \"conceal\" special does not allow the \"_" ++ op ++ "\" filter operator"

/-- `validateFilterOperator(type, filterOperator, special)`: strip the
leading underscore, check membership in the allowed-operator set for the
type, then (for `conceal` fields) in the set for the `hash` type. -/
def validateFilterOperator (ctx : Ctx) (ty : String) (filterOperator : String)
    (special : List String) : Except Err Unit :=
  let op := if strStartsWith filterOperator "_" then strDrop1 filterOperator else filterOperator
  if !(ctx.getFilterOperatorsForType ty).contains op then
    .error (.invalidQuery (typeErrMsg ty op))
  else if special.contains "conceal" && !(ctx.getFilterOperatorsForType "hash").contains op then
    .error (.invalidQuery (concealErrMsg op))
  else .ok ()

/-! ## Value coercion and `applyFilterToQuery` (lines 445-655) -/

def dateLikeTypes : List String := ["date", "dateTime", "time", "timestamp"]

def numericTypes : List String := ["bigInteger", "integer", "float", "decimal"]

/-- The value-coercion pipeline of `applyFilterToQuery`, applied once the
`undefined` early return has been passed: drop `undefined` entries from
arrays, coerce by a computed-function wrapper's output type, then coerce by
the declared type of the filtered field (`schema.getField` with the raw
column text, function wrapper included). -/
def coerceCompareValue (ctx : Ctx) (key : String) (originalCollectionName : Option String)
    (v0 : FVal) : FVal :=
  let parts := jsSplit key '.'
  let column := parts.getD 1 ""
  let v1 := match v0 with
    | .varr xs => .varr (xs.filter (fun x => x ≠ Prim.pundef))
    | v => v
  let v2 := if strHasChar column '(' && strHasChar column ')' then
      let functionName := (jsSplit column '(').headD ""
      let ty := ctx.getOutputTypeForFunction functionName
      if numericTypes.contains ty then jsToNumberF v1 else v1
    else v1
  let coll := parts.headD ""
  let mappedCollection := originalCollectionName.getD coll
  match ctx.getField mappedCollection column with
  | none => v2
  | some fi =>
      if dateLikeTypes.contains fi.type then
        match v2 with
        | .varr xs => .varr (xs.map ctx.dateParse)
        | .prim p => .prim (ctx.dateParse p)
        | v => v
      else if numericTypes.contains fi.type then
        match v2 with
        | .varr xs => .varr (xs.map jsToNumberP)
        | v => jsToNumberF v
      else v2

/-- JavaScript `value.toLowerCase()` after template coercion (the original
calls it directly on the value; non-strings are outside the embedded
fragment). -/
def jsLowerOfFVal (v : FVal) : String := jsToLower (jsStringOfFVal v)

/-- The comma-splitting applied by `_in`/`_nin`/`_between`/`_nbetween`:
`if (typeof value === 'string') value = value.split(',')`. -/
def splitIfString : FVal → FVal
  | .prim (.pstr s) => FVal.varr ((jsSplit s ',').map Prim.pstr)
  | v => v

/-- `applyFilterToQuery(key, operator, compareValue, logical,
originalCollectionName)`: the operator dispatch. Returns the where clauses
appended to `dbQuery`, in program order. -/
def applyFilterToQuery (ctx : Ctx) (key : String) (operator : String) (compareValue : FVal)
    (logical : Logic) (originalCollectionName : Option String) : List WClause :=
  let parts := jsSplit key '.'
  let table := parts.headD ""
  let column := parts.getD 1 ""
  let selectionRaw := getColumnStr table column
  let pre :=
    (if operator = "_null" ∨ (operator = "_nnull" ∧ compareValue = FVal.vbool false) then
        [WClause.wNull logical selectionRaw] else [])
    ++ (if operator = "_nnull" ∨ (operator = "_null" ∧ compareValue = FVal.vbool false) then
        [WClause.wNotNull logical selectionRaw] else [])
    ++ (if operator = "_empty" ∨ (operator = "_nempty" ∧ compareValue = FVal.vbool false) then
        [WClause.wGroup logical [WClause.wEq .and key (FVal.vstr "")]] else [])
    ++ (if operator = "_nempty" ∨ (operator = "_empty" ∧ compareValue = FVal.vbool false) then
        [WClause.wGroup logical [WClause.wOp .and key "!=" (FVal.vstr "")]] else [])
  if compareValue = FVal.vundef then pre
  else
    let cv := coerceCompareValue ctx key originalCollectionName compareValue
    -- the `if (operator === ...)` chain from `_eq` down tests mutually
    -- exclusive operator constants, so it is compiled as one dispatch
    pre ++
    match operator with
    | "_eq" => [WClause.wEq logical selectionRaw cv]
    | "_neq" => [WClause.wNot logical selectionRaw cv]
    | "_ieq" =>
        [WClause.wRaw logical "LOWER(??) = ?" [FVal.vstr selectionRaw, FVal.vstr (jsLowerOfFVal cv)]]
    | "_nieq" =>
        [WClause.wRaw logical "LOWER(??) <> ?" [FVal.vstr selectionRaw, FVal.vstr (jsLowerOfFVal cv)]]
    | "_contains" =>
        [WClause.wOp logical selectionRaw "like" (FVal.vstr ("%" ++ jsStringOfFVal cv ++ "%"))]
    | "_ncontains" =>
        [WClause.wNotOp logical selectionRaw "like" (FVal.vstr ("%" ++ jsStringOfFVal cv ++ "%"))]
    | "_icontains" =>
        [WClause.wRaw logical "LOWER(??) LIKE ?" [FVal.vstr selectionRaw, FVal.vstr ("%" ++ jsLowerOfFVal cv ++ "%")]]
    | "_nicontains" =>
        [WClause.wRaw logical "LOWER(??) NOT LIKE ?" [FVal.vstr selectionRaw, FVal.vstr ("%" ++ jsLowerOfFVal cv ++ "%")]]
    | "_starts_with" =>
        [WClause.wOp logical key "like" (FVal.vstr (jsStringOfFVal cv ++ "%"))]
    | "_nstarts_with" =>
        [WClause.wNotOp logical key "like" (FVal.vstr (jsStringOfFVal cv ++ "%"))]
    | "_istarts_with" =>
        [WClause.wRaw logical "LOWER(??) LIKE ?" [FVal.vstr selectionRaw, FVal.vstr (jsLowerOfFVal cv ++ "%")]]
    | "_nistarts_with" =>
        [WClause.wRaw logical "LOWER(??) NOT LIKE ?" [FVal.vstr selectionRaw, FVal.vstr (jsLowerOfFVal cv ++ "%")]]
    | "_ends_with" =>
        [WClause.wOp logical key "like" (FVal.vstr ("%" ++ jsStringOfFVal cv))]
    | "_nends_with" =>
        [WClause.wNotOp logical key "like" (FVal.vstr ("%" ++ jsStringOfFVal cv))]
    | "_iends_with" =>
        [WClause.wRaw logical "LOWER(??) LIKE ?" [FVal.vstr selectionRaw, FVal.vstr ("%" ++ jsLowerOfFVal cv)]]
    | "_niends_with" =>
        [WClause.wRaw logical "LOWER(??) NOT LIKE ?" [FVal.vstr selectionRaw, FVal.vstr ("%" ++ jsLowerOfFVal cv)]]
    | "_gt" => [WClause.wOp logical selectionRaw ">" cv]
    | "_gte" => [WClause.wOp logical selectionRaw ">=" cv]
    | "_lt" => [WClause.wOp logical selectionRaw "<" cv]
    | "_lte" => [WClause.wOp logical selectionRaw "<=" cv]
    | "_in" => [WClause.wIn logical selectionRaw (splitIfString cv)]
    | "_nin" => [WClause.wNotIn logical selectionRaw (splitIfString cv)]
    | "_between" =>
        if jsLength cv = some 2 then [WClause.wBetween logical selectionRaw (splitIfString cv)]
        else []
    | "_nbetween" =>
        if jsLength cv = some 2 then [WClause.wNotBetween logical selectionRaw (splitIfString cv)]
        else []
    | "_intersects" => [WClause.wRaw logical (ctx.stHelper "intersects" key cv) []]
    | "_nintersects" => [WClause.wRaw logical (ctx.stHelper "nintersects" key cv) []]
    | "_intersects_bbox" => [WClause.wRaw logical (ctx.stHelper "intersects_bbox" key cv) []]
    | "_nintersects_bbox" => [WClause.wRaw logical (ctx.stHelper "nintersects_bbox" key cv) []]
    | _ => []

/-! ## The join pass (`addJoins` inside `applyFilter`, lines 306-335) -/

mutual

/-- `addJoins(dbQuery, filter, collection)`: walk the filter object,
recursing into `_and`/`_or` children (unless an `_or` array contains an
empty object) and joining every multi-segment leaf path. -/
def addJoins (ctx : Ctx) (subQuery : Bool) (filter : Filter) (collection : String)
    (am : AliasMap) (ctr : Nat) : Except Err (List Join × AliasMap × Nat) :=
  match filter with
  | .node entries => addJoinsEntries ctx subQuery entries collection am ctr
  | _ => .ok ([], am, ctr)
termination_by fsize filter
decreasing_by all_goals (simp [fsize]; try omega)

def addJoinsEntries (ctx : Ctx) (subQuery : Bool) (es : List (String × Filter))
    (collection : String) (am : AliasMap) (ctr : Nat) :
    Except Err (List Join × AliasMap × Nat) :=
  match es with
  | [] => .ok ([], am, ctr)
  | (key, value) :: rest =>
      match addJoinsValue ctx subQuery key value collection am ctr with
      | .error e => .error e
      | .ok (d1, am1, c1) =>
          match addJoinsEntries ctx subQuery rest collection am1 c1 with
          | .error e => .error e
          | .ok (d2, am2, c2) => .ok (d1 ++ d2, am2, c2)
termination_by fesize es
decreasing_by all_goals (simp [fesize]; try omega)

/-- One `[key, value]` entry of the join pass. -/
def addJoinsValue (ctx : Ctx) (subQuery : Bool) (key : String) (value : Filter)
    (collection : String) (am : AliasMap) (ctr : Nat) :
    Except Err (List Join × AliasMap × Nat) :=
  if key = "_or" ∨ key = "_and" then
    -- If the _or array contains an empty object (full permissions), we
    -- should short-circuit and ignore all other permission checks
    if key = "_or" ∧ hasEmptyObj value then .ok ([], am, ctr)
    else match value with
      | .arr fs => addJoinsList ctx subQuery fs collection am ctr
      | _ => .ok ([], am, ctr)
  else
    let filterPath := getFilterPath key value
    if filterPath.length > 1 then addJoin ctx subQuery filterPath collection am ctr
    else .ok ([], am, ctr)
termination_by fsize value
decreasing_by all_goals (simp [fsize]; try omega)

def addJoinsList (ctx : Ctx) (subQuery : Bool) (fs : List Filter) (collection : String)
    (am : AliasMap) (ctr : Nat) : Except Err (List Join × AliasMap × Nat) :=
  match fs with
  | [] => .ok ([], am, ctr)
  | f :: rest =>
      match addJoins ctx subQuery f collection am ctr with
      | .error e => .error e
      | .ok (d1, am1, c1) =>
          match addJoinsList ctx subQuery rest collection am1 c1 with
          | .error e => .error e
          | .ok (d2, am2, c2) => .ok (d1 ++ d2, am2, c2)
termination_by flsize fs
decreasing_by all_goals (simp [flsize]; try omega)

end

/-! ## The predicate pass (`addWhereClauses`, lines 337-422) -/

/-- `relationType === 'm2o' || relationType === 'a2o' || relationType ===
null`: the scalar / forward-relation branch of the predicate pass. -/
def rtScalarish : Option (Relation × RelType) → Bool
  | none => true
  | some (_, .m2o) => true
  | some (_, .a2o) => true
  | _ => false

mutual

/-- `addWhereClauses(knex, dbQuery, filter, collection, logical)`: returns
the where clauses appended to `dbQuery`, in program order. -/
def addWhereClauses (ctx : Ctx) (subQuery : Bool) (am : AliasMap) (filter : Filter)
    (collection : String) (logical : Logic) : Except Err (List WClause) :=
  match filter with
  | .node entries => awcEntries ctx subQuery am entries collection logical
  | _ => .ok []
termination_by fsize filter
decreasing_by all_goals (simp [fsize]; try omega)

def awcEntries (ctx : Ctx) (subQuery : Bool) (am : AliasMap)
    (es : List (String × Filter)) (collection : String) (logical : Logic) :
    Except Err (List WClause) :=
  match es with
  | [] => .ok []
  | (key, value) :: rest =>
      match awcValue ctx subQuery am key value collection logical with
      | .error e => .error e
      | .ok d1 =>
          match awcEntries ctx subQuery am rest collection logical with
          | .error e => .error e
          | .ok d2 => .ok (d1 ++ d2)
termination_by fesize es
decreasing_by all_goals (simp [fesize]; try omega)

/-- One `[key, value]` entry of the predicate pass. -/
def awcValue (ctx : Ctx) (subQuery : Bool) (am : AliasMap) (key : String) (value : Filter)
    (collection : String) (logical : Logic) : Except Err (List WClause) :=
  if key = "_or" ∨ key = "_and" then
    -- If the _or array contains an empty object (full permissions), we
    -- should short-circuit and ignore all other permission checks
    if key = "_or" ∧ hasEmptyObj value then .ok []
    else match value with
      | .arr fs => awcList ctx subQuery am fs collection
                     (if key = "_and" then Logic.and else Logic.or)
      | _ => .ok []
  else
    let filterPath := getFilterPath key value
    let pathRoot := (jsSplit (filterPath.headD "") ':').headD ""
    let rinfo := ctx.relationInfo collection pathRoot
    if rtScalarish rinfo then
      -- getOperation(key, value) is evaluated before the branch in the
      -- original; it is pure, so it is used where it is consumed
      let op := getOperation key value
      if filterPath.length > 1 then
        match getColumnPath ctx am filterPath collection with
        | none => .ok []
        | some (columnPath, targetCollection) =>
            match ctx.getField targetCollection (stripFunction (filterPath.getLastD "")) with
            | none => .error .schemaFault
            | some field =>
                match validateFilterOperator ctx field.type op.1 field.special with
                | .error e => .error e
                | .ok _ => .ok (applyFilterToQuery ctx columnPath op.1 (filterToFVal op.2)
                                 logical (some targetCollection))
      else
        match ctx.getField collection (stripFunction (filterPath.headD "")) with
        | none => .error .schemaFault
        | some field =>
            match validateFilterOperator ctx field.type op.1 field.special with
            | .error e => .error e
            | .ok _ => .ok (applyFilterToQuery ctx (collection ++ "." ++ filterPath.headD "")
                             op.1 (filterToFVal op.2) logical none)
    else if subQuery = false ∨ filterPath.length > 1 then
      match rinfo with
      | none => .ok []
      | some (relation, relationType) =>
          match relation.related_collection.bind ctx.getCollection with
          | none => .error .schemaFault
          | some collectionInfo =>
              let pkCol := collection ++ "." ++ collectionInfo.primary
              let pkField : PkExpr := if relationType = .o2a then .cast pkCol else .col pkCol
              match firstEntry value with
              | some ("_none", sub) =>
                  .ok [.wNotInSub logical pkField ⟨relation.collection, relation.field, sub⟩]
              | some ("_some", sub) =>
                  .ok [.wInSub logical pkField ⟨relation.collection, relation.field, sub⟩]
              | _ =>
                  .ok [.wInSub logical pkField ⟨relation.collection, relation.field, value⟩]
    else .ok []
termination_by fsize value
decreasing_by all_goals (simp [fsize]; try omega)

def awcList (ctx : Ctx) (subQuery : Bool) (am : AliasMap) (fs : List Filter)
    (collection : String) (logical : Logic) : Except Err (List WClause) :=
  match fs with
  | [] => .ok []
  | f :: rest =>
      match addWhereClauses ctx subQuery am f collection logical with
      | .error e => .error e
      | .ok d1 =>
          match awcList ctx subQuery am rest collection logical with
          | .error e => .error e
          | .ok d2 => .ok (d1 ++ d2)
termination_by flsize fs
decreasing_by all_goals (simp [flsize]; try omega)

end

/-! ## `applyFilter`, `applySearch`, `applyAggregate`, `applySort`,
`applyQuery` -/

/-- `applyFilter(knex, schema, rootQuery, rootFilter, collection,
subQuery)`: fresh alias map, join pass, then predicate pass (default
logical `and`). Returns the joins and where clauses appended to the root
query, plus the fresh-name counter. -/
def applyFilter (ctx : Ctx) (rootFilter : Filter) (collection : String) (subQuery : Bool)
    (ctr : Nat) : Except Err (List Join × List WClause × Nat) :=
  match addJoins ctx subQuery rootFilter collection [] ctr with
  | .error e => .error e
  | .ok (dj, am, ctr2) =>
      match addWhereClauses ctx subQuery am rootFilter collection .and with
      | .error e => .error e
      | .ok dw => .ok (dj, dw, ctr2)

/-- Per-field clause of `applySearch` (lines 668-676). -/
def searchFieldClause (ctx : Ctx) (searchQuery collection : String)
    (nf : String × FieldInfo) : List WClause :=
  if (["text", "string"] : List String).contains nf.2.type then
    [.wRaw .or "LOWER(??) LIKE ?"
      [FVal.vstr (collection ++ "." ++ nf.1), FVal.vstr ("%" ++ jsToLower searchQuery ++ "%")]]
  else if (["bigInteger", "integer", "decimal", "float"] : List String).contains nf.2.type then
    match strToNumber searchQuery with
    | .pnum n => [.wEq .or (collection ++ "." ++ nf.1) (FVal.vnum n)]
    | _ => []
  else if nf.2.type = "uuid" ∧ ctx.uuidValidate searchQuery then
    [.wEq .or (collection ++ "." ++ nf.1) (FVal.vstr searchQuery)]
  else []

def searchFieldClauses (ctx : Ctx) (searchQuery collection : String) :
    List (String × FieldInfo) → List WClause
  | [] => []
  | nf :: rest =>
      searchFieldClause ctx searchQuery collection nf
        ++ searchFieldClauses ctx searchQuery collection rest

/-- `applySearch(schema, dbQuery, searchQuery, collection)`: one
`andWhere` group whose members are `or`-attached per-field predicates.
Returns the clauses appended to `dbQuery`. -/
def applySearch (ctx : Ctx) (searchQuery collection : String) : List WClause :=
  [.wGroup .and (searchFieldClauses ctx searchQuery collection (ctx.getFields collection))]

/-- The projections emitted for one `(operation, field)` pair of
`applyAggregate` (lines 685-725), following the source's sequential
`if (operation === ...)` blocks. -/
def aggOne (operation field collection : String) : List AggProj :=
  (if operation = "avg" then
      [⟨"avg", collection ++ "." ++ field, "avg->" ++ field⟩] else [])
  ++ (if operation = "avgDistinct" then
      [⟨"avgDistinct", collection ++ "." ++ field, "avgDistinct->" ++ field⟩] else [])
  ++ (if operation = "countAll" then [⟨"count", "*", "countAll"⟩] else [])
  ++ (if operation = "count" then
      (if field = "*" then [⟨"count", "*", "count"⟩]
       else [⟨"count", collection ++ "." ++ field, "count->" ++ field⟩]) else [])
  ++ (if operation = "countDistinct" then
      [⟨"countDistinct", collection ++ "." ++ field, "countDistinct->" ++ field⟩] else [])
  ++ (if operation = "sum" then
      [⟨"sum", collection ++ "." ++ field, "sum->" ++ field⟩] else [])
  ++ (if operation = "sumDistinct" then
      [⟨"sumDistinct", collection ++ "." ++ field, "sumDistinct->" ++ field⟩] else [])
  ++ (if operation = "min" then
      [⟨"min", collection ++ "." ++ field, "min->" ++ field⟩] else [])
  ++ (if operation = "max" then
      [⟨"max", collection ++ "." ++ field, "max->" ++ field⟩] else [])

def aggFields (operation : String) (fs : List String) (collection : String) : List AggProj :=
  match fs with
  | [] => []
  | field :: rest => aggOne operation field collection ++ aggFields operation rest collection

/-- `applyAggregate(dbQuery, aggregate, collection)`: returns the aggregate
projections appended to `dbQuery` (`Object.entries` order; a missing field
list is skipped). -/
def applyAggregate (aggregate : List (String × Option (List String))) (collection : String) :
    List AggProj :=
  match aggregate with
  | [] => []
  | (operation, fields) :: rest =>
      (match fields with
       | none => []
       | some fs => aggFields operation fs collection)
        ++ applyAggregate rest collection

/-- The fold inside `applySort` (lines 240-283): per sort entry, strip a
leading `-`, join relational paths and resolve the ordered column. Returns
the joins emitted on the root query and the order entries handed to
`orderBy`, in input order. -/
def applySortFold (ctx : Ctx) (collection : String) (subQuery : Bool) :
    List String → AliasMap → Nat → Except Err (List Join × List SortEntry × AliasMap × Nat)
  | [], am, ctr => .ok ([], [], am, ctr)
  | sortField :: rest, am, ctr =>
      let column := jsSplit sortField '.'
      if column.length > 1 then
        let ord := if strStartsWith sortField "-" then "desc" else "asc"
        let col0 := column.headD ""
        let column2 := (if strStartsWith col0 "-" then strDrop1 col0 else col0) :: column.tail
        match addJoin ctx subQuery column2 collection am ctr with
        | .error e => .error e
        | .ok (dj, am2, ctr2) =>
            match getColumnPath ctx am2 column2 collection with
            | none => .error .schemaFault
            | some (columnPath, _) =>
                let ps := jsSplit columnPath '.'
                let entry : SortEntry := ⟨getColumnStr (ps.headD "") (ps.getD 1 ""), ord⟩
                match applySortFold ctx collection subQuery rest am2 ctr2 with
                | .error e => .error e
                | .ok (djr, der, am3, ctr3) => .ok (dj ++ djr, entry :: der, am3, ctr3)
      else
        let (col, ord) :=
          if strStartsWith sortField "-" then (strDrop1 (column.headD ""), "desc")
          else (column.headD "", "asc")
        let entry : SortEntry := ⟨getColumnStr collection col, ord⟩
        match applySortFold ctx collection subQuery rest am ctr with
        | .error e => .error e
        | .ok (djr, der, am2, ctr2) => .ok (djr, entry :: der, am2, ctr2)

/-- `applySort(knex, schema, rootQuery, rootSort, collection, subQuery)`:
fresh alias map, then the fold above, then one `orderBy(mapped)`. -/
def applySort (ctx : Ctx) (rootSort : List String) (collection : String) (subQuery : Bool)
    (ctr : Nat) : Except Err (List Join × List SortEntry × Nat) :=
  match applySortFold ctx collection subQuery rootSort [] ctr with
  | .error e => .error e
  | .ok (dj, der, _, ctr2) => .ok (dj, der, ctr2)

/-- The `Query` argument of `applyQuery`: `none` models an absent
property. -/
structure Query where
  sort : Option (List String) := none
  limit : Option Int := none
  offset : Option Int := none
  page : Option Int := none
  search : Option String := none
  group : Option (List String) := none
  aggregate : Option (List (String × Option (List String))) := none
  filter : Option Filter := none

/-- `if (query.sort) await applySort(...)` (line 37). -/
def stepSort (ctx : Ctx) (collection : String) (subQuery : Bool) (query : Query)
    (qc : QB × Nat) : Except Err (QB × Nat) :=
  match query.sort with
  | some rootSort =>
      match applySort ctx rootSort collection subQuery qc.2 with
      | .error e => .error e
      | .ok (dj, der, ctr2) =>
          .ok ({ qc.1 with joins := qc.1.joins ++ dj,
                           orders := qc.1.orders ++ der }, ctr2)
  | none => .ok qc

/-- `if (typeof query.limit === 'number' && query.limit !== -1)
dbQuery.limit(query.limit)` (line 41). -/
def stepLimit (query : Query) (qb : QB) : QB :=
  match query.limit with
  | some l => if l ≠ -1 then { qb with limit := some l } else qb
  | none => qb

/-- `if (query.offset) dbQuery.offset(query.offset)` (line 45). -/
def stepOffset (query : Query) (qb : QB) : QB :=
  match query.offset with
  | some o => if o ≠ 0 then { qb with offset := some o } else qb
  | none => qb

/-- `if (query.page && query.limit && query.limit !== -1)
dbQuery.offset(query.limit * (query.page - 1))` (line 49). -/
def stepPage (query : Query) (qb : QB) : QB :=
  match query.page, query.limit with
  | some p, some l =>
      if p ≠ 0 ∧ l ≠ 0 ∧ l ≠ -1 then { qb with offset := some (l * (p - 1)) } else qb
  | _, _ => qb

/-- `if (query.search) await applySearch(...)` (line 53). -/
def stepSearch (ctx : Ctx) (collection : String) (query : Query) (qb : QB) : QB :=
  match query.search with
  | some s => if s ≠ "" then { qb with wheres := qb.wheres ++ applySearch ctx s collection }
              else qb
  | none => qb

/-- `if (query.group) dbQuery.groupBy(mapped)` (line 57). -/
def stepGroup (collection : String) (query : Query) (qb : QB) : QB :=
  match query.group with
  | some g => { qb with groups := qb.groups ++ g.map (fun c => getColumnStr collection c) }
  | none => qb

/-- `if (query.aggregate) applyAggregate(...)` (line 63). -/
def stepAggregate (collection : String) (query : Query) (qb : QB) : QB :=
  match query.aggregate with
  | some a => { qb with aggs := qb.aggs ++ applyAggregate a collection }
  | none => qb

/-- `if (query.filter) await applyFilter(...)` (line 67). -/
def stepFilter (ctx : Ctx) (collection : String) (subQuery : Bool) (query : Query)
    (qc : QB × Nat) : Except Err (QB × Nat) :=
  match query.filter with
  | some f =>
      match applyFilter ctx f collection subQuery qc.2 with
      | .error e => .error e
      | .ok (dj, dw, ctrB) =>
          .ok ({ qc.1 with joins := qc.1.joins ++ dj, wheres := qc.1.wheres ++ dw }, ctrB)
  | none => .ok qc

/-- `applyQuery(knex, collection, dbQuery, query, schema, subQuery)`
(lines 29-72): the orchestrator, applying sort, limit, offset, page,
search, group, aggregate and filter to the builder in that order.
JavaScript truthiness gates each step (`0`, `-1`-for-limit and the empty
string are skipped exactly as the source conditions do). -/
def applyQuery (ctx : Ctx) (collection : String) (dbQuery : QB) (query : Query)
    (subQuery : Bool) (ctr : Nat) : Except Err (QB × Nat) :=
  match stepSort ctx collection subQuery query (dbQuery, ctr) with
  | .error e => .error e
  | .ok qc1 =>
      stepFilter ctx collection subQuery query
        (stepAggregate collection query
          (stepGroup collection query
            (stepSearch ctx collection query
              (stepPage query (stepOffset query (stepLimit query qc1.1))))), qc1.2)

/-- The builder state constructed by the body of the `subQueryBuilder`
closure before the recursive `applyQuery` call:
`select({ [field]: column }).from(collection).whereNotNull(column)`. -/
def subQueryBase (spec : SubQuerySpec) : QB :=
  { selects := [(spec.field, spec.collection ++ "." ++ spec.field)],
    fromT := some spec.collection,
    wheres := [.wNotNull .and (spec.collection ++ "." ++ spec.field)] }

/-- Executing the `subQueryBuilder(filter)` closure captured in a
`wInSub`/`wNotInSub` clause: build the base subquery and apply
`{ filter }` through `applyQuery` with `subQuery = true`. -/
def runSubQueryBuilder (ctx : Ctx) (spec : SubQuerySpec) (ctr : Nat) :
    Except Err (QB × Nat) :=
  applyQuery ctx spec.collection (subQueryBase spec) { filter := some spec.filt } true ctr

/-! ## Theorems -/

/-! ### Aggregate naming (C6) -/

/-- Specification-side naming scheme for aggregate projections, as amended:
`count` on `*` and `countAll` keep their bare names, and every other known
operation on a named field is projected as `"<operation>-><field>"` (the
separator is `->` with no dot). -/
def aggNamingSpec (collection operation field : String) : List AggProj :=
  if operation = "countAll" then [⟨"count", "*", "countAll"⟩]
  else if operation = "count" then
    if field = "*" then [⟨"count", "*", "count"⟩]
    else [⟨"count", collection ++ "." ++ field, "count->" ++ field⟩]
  else if (["avg", "avgDistinct", "countDistinct", "sum", "sumDistinct", "min", "max"] :
      List String).contains operation then
    [⟨operation, collection ++ "." ++ field, operation ++ "->" ++ field⟩]
  else []

lemma aggOne_eq_spec (operation field collection : String) :
    aggOne operation field collection = aggNamingSpec collection operation field := by
  by_cases h1 : operation = "avg"
  · subst h1; simp [aggOne, aggNamingSpec]
  by_cases h2 : operation = "avgDistinct"
  · subst h2; simp [aggOne, aggNamingSpec]
  by_cases h3 : operation = "countAll"
  · subst h3; simp [aggOne, aggNamingSpec]
  by_cases h4 : operation = "count"
  · subst h4; simp [aggOne, aggNamingSpec]
  by_cases h5 : operation = "countDistinct"
  · subst h5; simp [aggOne, aggNamingSpec]
  by_cases h6 : operation = "sum"
  · subst h6; simp [aggOne, aggNamingSpec]
  by_cases h7 : operation = "sumDistinct"
  · subst h7; simp [aggOne, aggNamingSpec]
  by_cases h8 : operation = "min"
  · subst h8; simp [aggOne, aggNamingSpec]
  by_cases h9 : operation = "max"
  · subst h9; simp [aggOne, aggNamingSpec]
  simp [aggOne, aggNamingSpec, h1, h2, h3, h4, h5, h6, h7, h8, h9]

lemma aggFields_eq_spec (operation : String) (fs : List String) (collection : String) :
    aggFields operation fs collection = fs.flatMap (fun f => aggNamingSpec collection operation f) := by
  induction fs with
  | nil => rfl
  | cons f rest ih => simp [aggFields, aggOne_eq_spec, ih]

/-- C6 counterexample: `{sum: ["amount"]}` on `orders` is projected as
`sum->amount`, not `sum->.amount` as the claim states. -/
theorem C6_aggregate_name_counterexample :
    (applyAggregate [("sum", some ["amount"])] "orders").map AggProj.asName = ["sum->amount"]
    ∧ "sum->amount" ≠ "sum->.amount" := by
  exact ⟨rfl, by decide⟩

/-- C6 (amended): each (operation, field) pair of an aggregate
specification produces exactly the projections of `aggNamingSpec`: `count`
on `*` yields the bare name `count`, `countAll` yields the bare name
`countAll`, and every other known operation on a named field yields the
name `"<operation>-><field>"` (e.g. `{sum: ["amount"]}` yields `sum->amount`);
unknown operations and missing field lists yield nothing. -/
theorem C6_aggregate_naming (aggregate : List (String × Option (List String)))
    (collection : String) :
    applyAggregate aggregate collection =
      aggregate.flatMap (fun e =>
        match e.2 with
        | none => []
        | some fs => fs.flatMap (fun f => aggNamingSpec collection e.1 f)) := by
  induction aggregate with
  | nil => rfl
  | cons e rest ih =>
      obtain ⟨op, fields⟩ := e
      cases fields with
      | none => simpa [applyAggregate] using ih
      | some fs => simp [applyAggregate, ih, aggFields_eq_spec]

/-! ### Limit / offset / page at the orchestrator (C9, C10) -/

/-- The limit recorded on the builder after `applyQuery`, as a function of
the incoming limit and the query. -/
def limitSpec (base lim : Option Int) : Option Int :=
  match lim with
  | some l => if l ≠ -1 then some l else base
  | none => base

/-- The offset recorded on the builder after `applyQuery`: the explicit
offset (when truthy) overwritten by the page-derived offset when page and
limit are truthy and limit is not `-1`. -/
def offsetSpec (base off page lim : Option Int) : Option Int :=
  let b1 := match off with
    | some o => if o ≠ 0 then some o else base
    | none => base
  match page, lim with
  | some p, some l => if p ≠ 0 ∧ l ≠ 0 ∧ l ≠ -1 then some (l * (p - 1)) else b1
  | _, _ => b1

lemma stepSort_limit_offset (ctx : Ctx) (collection : String) (subQuery : Bool)
    (query : Query) (qc : QB × Nat) (qc2 : QB × Nat)
    (h : stepSort ctx collection subQuery query qc = .ok qc2) :
    qc2.1.limit = qc.1.limit ∧ qc2.1.offset = qc.1.offset := by
  unfold stepSort at h
  cases hq : query.sort with
  | none => rw [hq] at h; cases h; exact ⟨rfl, rfl⟩
  | some s =>
      simp only [hq] at h
      cases hs : applySort ctx s collection subQuery qc.2 with
      | error e =>
          simp only [hs] at h
          exact (Except.noConfusion h)
      | ok t =>
          obtain ⟨dj, der, ctr2⟩ := t
          simp only [hs] at h
          cases h
          exact ⟨rfl, rfl⟩

lemma stepSearch_limit_offset (ctx : Ctx) (collection : String) (query : Query) (qb : QB) :
    (stepSearch ctx collection query qb).limit = qb.limit
    ∧ (stepSearch ctx collection query qb).offset = qb.offset := by
  unfold stepSearch
  cases query.search with
  | none => exact ⟨rfl, rfl⟩
  | some s => by_cases hs : s ≠ "" <;> simp [hs]

lemma stepGroup_limit_offset (collection : String) (query : Query) (qb : QB) :
    (stepGroup collection query qb).limit = qb.limit
    ∧ (stepGroup collection query qb).offset = qb.offset := by
  unfold stepGroup
  cases query.group with
  | none => exact ⟨rfl, rfl⟩
  | some g => exact ⟨rfl, rfl⟩

lemma stepAggregate_limit_offset (collection : String) (query : Query) (qb : QB) :
    (stepAggregate collection query qb).limit = qb.limit
    ∧ (stepAggregate collection query qb).offset = qb.offset := by
  unfold stepAggregate
  cases query.aggregate with
  | none => exact ⟨rfl, rfl⟩
  | some a => exact ⟨rfl, rfl⟩

lemma stepFilter_limit_offset (ctx : Ctx) (collection : String) (subQuery : Bool)
    (query : Query) (qc : QB × Nat) (qc2 : QB × Nat)
    (h : stepFilter ctx collection subQuery query qc = .ok qc2) :
    qc2.1.limit = qc.1.limit ∧ qc2.1.offset = qc.1.offset := by
  unfold stepFilter at h
  cases hq : query.filter with
  | none => rw [hq] at h; cases h; exact ⟨rfl, rfl⟩
  | some f =>
      simp only [hq] at h
      cases hf : applyFilter ctx f collection subQuery qc.2 with
      | error e =>
          simp only [hf] at h
          exact (Except.noConfusion h)
      | ok t =>
          obtain ⟨dj, dw, ctrB⟩ := t
          simp only [hf] at h
          cases h
          exact ⟨rfl, rfl⟩

lemma stepLimit_limit (query : Query) (qb : QB) :
    (stepLimit query qb).limit = limitSpec qb.limit query.limit
    ∧ (stepLimit query qb).offset = qb.offset := by
  unfold stepLimit limitSpec
  cases query.limit with
  | none => exact ⟨rfl, rfl⟩
  | some l => by_cases hl : l ≠ -1 <;> simp [hl]

lemma stepOffset_offset (query : Query) (qb : QB) :
    (stepOffset query qb).offset =
      (match query.offset with
       | some o => if o ≠ 0 then some o else qb.offset
       | none => qb.offset)
    ∧ (stepOffset query qb).limit = qb.limit := by
  unfold stepOffset
  cases query.offset with
  | none => exact ⟨rfl, rfl⟩
  | some o => by_cases ho : o ≠ 0 <;> simp [ho]

lemma stepPage_offset (query : Query) (qb : QB) :
    (stepPage query qb).offset =
      (match query.page, query.limit with
       | some p, some l =>
           if p ≠ 0 ∧ l ≠ 0 ∧ l ≠ -1 then some (l * (p - 1)) else qb.offset
       | _, _ => qb.offset)
    ∧ (stepPage query qb).limit = qb.limit := by
  unfold stepPage
  cases hp : query.page with
  | none => exact ⟨rfl, rfl⟩
  | some p =>
      cases hl : query.limit with
      | none => exact ⟨rfl, rfl⟩
      | some l => by_cases hc : p ≠ 0 ∧ l ≠ 0 ∧ l ≠ -1 <;> simp [hc]

/-- The limit and offset of the builder returned by `applyQuery` are
exactly `limitSpec` / `offsetSpec` of the query's limit, offset and page;
all other steps leave them untouched. -/
lemma applyQuery_limit_offset (ctx : Ctx) (collection : String) (qb : QB) (query : Query)
    (subQuery : Bool) (ctr : Nat) (qb2 : QB) (ctr2 : Nat)
    (h : applyQuery ctx collection qb query subQuery ctr = .ok (qb2, ctr2)) :
    qb2.limit = limitSpec qb.limit query.limit
    ∧ qb2.offset = offsetSpec qb.offset query.offset query.page query.limit := by
  unfold applyQuery at h
  cases hs : stepSort ctx collection subQuery query (qb, ctr) with
  | error e => rw [hs] at h; cases h
  | ok qc1 =>
      rw [hs] at h
      have hsort := stepSort_limit_offset ctx collection subQuery query (qb, ctr) qc1 hs
      have hfil := stepFilter_limit_offset ctx collection subQuery query _ _ h
      have hagg := stepAggregate_limit_offset collection query
        (stepGroup collection query
          (stepSearch ctx collection query
            (stepPage query (stepOffset query (stepLimit query qc1.1)))))
      have hgrp := stepGroup_limit_offset collection query
        (stepSearch ctx collection query
          (stepPage query (stepOffset query (stepLimit query qc1.1))))
      have hsea := stepSearch_limit_offset ctx collection query
        (stepPage query (stepOffset query (stepLimit query qc1.1)))
      have hpag := stepPage_offset query (stepOffset query (stepLimit query qc1.1))
      have hoff := stepOffset_offset query (stepLimit query qc1.1)
      have hlim := stepLimit_limit query qc1.1
      constructor
      · rw [hfil.1, hagg.1, hgrp.1, hsea.1, hpag.2, hoff.2, hlim.1, hsort.1]
      · rw [hfil.2, hagg.2, hgrp.2, hsea.2, hpag.1, hoff.1, hlim.2, hsort.2]
        unfold offsetSpec
        rfl

/-- C9 counterexample: with `limit = 0` (a numeric limit different from
`-1`), an explicit `offset = 5` and `page = 2`, the page branch is skipped
(`query.limit` is falsy), so the compiled offset stays the explicit `5`
and is not the page-derived `0 * (2 - 1)`. -/
theorem C9_page_offset_counterexample :
    applyQuery {} "articles" {} { limit := some 0, offset := some 5, page := some 2 } false 0
      = .ok ({ limit := some 0, offset := some 5 }, 0)
    ∧ (some (5 : Int) : Option Int) ≠ some ((0 : Int) * (2 - 1)) := by
  exact ⟨rfl, by decide⟩

/-- C9 (amended): for every query providing an explicit `offset` and a
nonzero `page` together with a nonzero numeric `limit` different from
`-1`, the page-derived offset `limit * (page - 1)` is applied after the
explicit offset and replaces it, so the compiled query's effective offset
is the page-derived one. (`limit = 0` or `page = 0` are falsy in the
source's `query.page && query.limit` guard and skip the page branch.) -/
theorem C9_page_replaces_offset (ctx : Ctx) (collection : String) (qb : QB) (query : Query)
    (subQuery : Bool) (ctr : Nat) (qb2 : QB) (ctr2 : Nat) (l p o : Int)
    (hlim : query.limit = some l) (hl1 : l ≠ -1) (hl0 : l ≠ 0)
    (hpage : query.page = some p) (hp0 : p ≠ 0)
    (hoff : query.offset = some o)
    (h : applyQuery ctx collection qb query subQuery ctr = .ok (qb2, ctr2)) :
    qb2.offset = some (l * (p - 1)) := by
  have hres := (applyQuery_limit_offset ctx collection qb query subQuery ctr qb2 ctr2 h).2
  rw [hres]
  unfold offsetSpec
  rw [hoff, hpage, hlim]
  simp [hp0, hl0, hl1]

theorem C9_page_replaces_offset_witness :
    applyQuery {} "articles" {} { limit := some 3, offset := some 5, page := some 2 } false 0
      = .ok ({ limit := some 3, offset := some 3 }, 0)
    ∧ ({ limit := some 3, offset := some 3 } : QB).offset = some ((3 : Int) * (2 - 1)) :=
  ⟨rfl,
   C9_page_replaces_offset {} "articles" {}
     { limit := some 3, offset := some 5, page := some 2 } false 0
     { limit := some 3, offset := some 3 } 0 3 2 5 rfl (by decide) (by decide) rfl (by decide)
     rfl rfl⟩

/-- C10: a limit of `-1` (or an absent / non-numeric limit) applies no
LIMIT to the query target and also suppresses the page-derived offset even
when `page` is set: the builder's limit is unchanged and its offset is
exactly the explicit-offset result. -/
theorem C10_limit_minus_one_unlimited (ctx : Ctx) (collection : String) (qb : QB)
    (query : Query) (subQuery : Bool) (ctr : Nat) (qb2 : QB) (ctr2 : Nat)
    (hlim : query.limit = some (-1) ∨ query.limit = none)
    (h : applyQuery ctx collection qb query subQuery ctr = .ok (qb2, ctr2)) :
    qb2.limit = qb.limit
    ∧ qb2.offset = (match query.offset with
                    | some o => if o ≠ 0 then some o else qb.offset
                    | none => qb.offset) := by
  have hres := applyQuery_limit_offset ctx collection qb query subQuery ctr qb2 ctr2 h
  rcases hlim with h1 | h1
  · refine ⟨?_, ?_⟩
    · rw [hres.1]; unfold limitSpec; rw [h1]; simp
    · rw [hres.2]; unfold offsetSpec; rw [h1]; cases query.page <;> simp
  · refine ⟨?_, ?_⟩
    · rw [hres.1]; unfold limitSpec; rw [h1]
    · rw [hres.2]; unfold offsetSpec; rw [h1]; cases query.page <;> simp

theorem C10_limit_minus_one_unlimited_witness :
    applyQuery {} "articles" {} { limit := some (-1), offset := some 7, page := some 2 } false 0
      = .ok ({ offset := some 7 }, 0)
    ∧ ({ offset := some 7 } : QB).limit = ({} : QB).limit
    ∧ ({ offset := some 7 } : QB).offset = some 7 := by
  refine ⟨rfl, ?_⟩
  have hres := C10_limit_minus_one_unlimited {} "articles" {}
    { limit := some (-1), offset := some 7, page := some 2 } false 0
    { offset := some 7 } 0 (Or.inl rfl) rfl
  exact ⟨hres.1, hres.2⟩

/-! ### The path resolver is not idempotent (C2) -/

/-- A minimal schema for the C2 counterexample: `pages.author` is an m2o
relation to `authors`. -/
def relAuthorC2 : Relation :=
  { collection := "pages", field := "author", related_collection := some "authors" }

def ctxC2 : Ctx :=
  { relationInfo := fun c f =>
      if c = "pages" ∧ f = "author" then some (relAuthorC2, .m2o) else none,
    getCollection := fun c =>
      if c = "authors" ∨ c = "pages" then some ⟨"id"⟩ else none }

/-- C2 counterexample: calling `addJoin` twice with the same path and the
same alias map emits a second (duplicate) join and overwrites the recorded
alias with a fresh one, instead of emitting no join and reusing the first
alias. -/
theorem C2_resolver_not_idempotent_counterexample :
    addJoin ctxC2 false ["author", "name"] "pages" [] 0
      = .ok ([⟨"alias0", "authors", .onCols "pages.author" "alias0.id"⟩],
             [(["author", "name"], "alias0")], 1)
    ∧ addJoin ctxC2 false ["author", "name"] "pages" [(["author", "name"], "alias0")] 1
      = .ok ([⟨"alias1", "authors", .onCols "pages.author" "alias1.id"⟩],
             [(["author", "name"], "alias1")], 2)
    ∧ ("alias1" : String) ≠ "alias0" :=
  ⟨rfl, rfl, by decide⟩

/-- C2 (amended): `addJoin` performs no deduplication against the alias
map: every call on a path whose root is an m2o relation (and whose second
segment is not itself a relation) unconditionally generates a fresh alias,
emits one join for the hop, and records the fresh alias in the alias map,
overwriting any alias recorded by an earlier call; repeated calls with the
same path therefore emit duplicate joins. -/
theorem C2_resolver_fresh_alias_each_call (ctx : Ctx) (subQuery : Bool)
    (p0 f2 collection rc : String) (ci : CollectionInfo) (relation : Relation)
    (am : AliasMap) (ctr : Nat)
    (hrel : ctx.relationInfo collection ((jsSplit p0 ':').headD "") = some (relation, .m2o))
    (hrc : relation.related_collection = some rc)
    (hci : ctx.getCollection rc = some ci)
    (hnext : ctx.relationInfo rc ((jsSplit f2 ':').headD "") = none) :
    addJoin ctx subQuery [p0, f2] collection am ctr =
      .ok ([⟨genAlias ctr, rc,
             .onCols (collection ++ "." ++ relation.field)
                     (genAlias ctr ++ "." ++ ci.primary)⟩],
           amSet am [p0, f2] (genAlias ctr), ctr + 1) := by
  unfold addJoin
  rw [followRelation.eq_def]
  simp only [hrel, hrc, hci, hnext, Option.some_bind, Option.getD_none, Option.getD_some]
  rw [followRelation.eq_def]
  simp only [List.headD_eq_head?] at hnext
  simp [hnext]

theorem C2_resolver_fresh_alias_each_call_witness :
    addJoin ctxC2 false ["author", "name"] "pages" [(["author", "name"], genAlias 0)] 1 =
      .ok ([⟨genAlias 1, "authors",
             .onCols ("pages" ++ "." ++ relAuthorC2.field) (genAlias 1 ++ "." ++ "id")⟩],
           amSet [(["author", "name"], genAlias 0)] ["author", "name"] (genAlias 1), 2) :=
  C2_resolver_fresh_alias_each_call ctxC2 false "author" "name" "pages" "authors" ⟨"id"⟩
    relAuthorC2 [(["author", "name"], genAlias 0)] 1 rfl rfl rfl rfl

/-! ### Polymorphic hops require a scope (C4) -/

/-- C4: a filter or sort path segment that resolves to an a2o (many-to-any)
relation must carry a `:scope` suffix: without one, `followRelation`
raises the invalid-query error (emitting no join); with one, the emitted
join left-joins the scoped collection under a compound condition — a
literal equality of the relation's discriminator column against the scope
name AND an equality of the parent's field against the scoped collection's
primary key cast to `CHAR(255)`. -/
theorem C4_a2o_scope (ctx : Ctx) (subQuery : Bool) (p0 : String) (rest : List String)
    (parentCollection : String) (parentAlias : Option String) (am : AliasMap) (ctr : Nat)
    (relation : Relation)
    (hrel : ctx.relationInfo parentCollection ((jsSplit p0 ':').headD "")
      = some (relation, .a2o)) :
    ((jsSplit p0 ':').get? 1 = none →
      followRelation ctx subQuery (p0 :: rest) parentCollection parentAlias am ctr
        = .error (.invalidQuery scopeMsg))
    ∧ (∀ scope ci disc, (jsSplit p0 ':').get? 1 = some scope →
        ctx.getCollection scope = some ci →
        relation.meta = some { one_collection_field := some disc } →
        followRelation ctx subQuery [p0] parentCollection parentAlias am ctr
          = .ok ([⟨genAlias ctr, scope,
                  .onValAndCast disc scope
                    ((parentAlias.getD parentCollection) ++ "." ++ relation.field)
                    (genAlias ctr ++ "." ++ ci.primary)⟩],
                 amSet am (match parentAlias with
                           | some pa => [pa, p0]
                           | none => [p0]) (genAlias ctr), ctr + 1)) := by
  have hrel2 := hrel
  simp only [List.headD_eq_head?] at hrel2
  constructor
  · intro hscope
    rw [followRelation.eq_def]
    simp only [List.get?_eq_getElem?] at hscope
    simp [hrel2, hscope]
  · intro scope ci disc hscope hci hmeta
    rw [followRelation.eq_def]
    simp only [List.get?_eq_getElem?] at hscope
    cases subQuery <;>
      simp [hrel2, hscope, hci, hmeta, RelMeta.one_collection_field]

/-- A minimal schema for the C4 witness: `acts.item` is an a2o relation
whose allowed scope `events` has primary key `id`. -/
def relItemC4 : Relation :=
  { collection := "acts", field := "item",
    meta := some { one_collection_field := some "collection" } }

def ctxC4 : Ctx :=
  { relationInfo := fun c f =>
      if c = "acts" ∧ f = "item" then some (relItemC4, .a2o) else none,
    getCollection := fun c => if c = "events" then some ⟨"id"⟩ else none }

theorem C4_a2o_scope_witness :
    ((jsSplit "item" ':').get? 1 = none)
    ∧ followRelation ctxC4 false ["item"] "acts" none [] 0
        = .error (.invalidQuery scopeMsg)
    ∧ ((jsSplit "item:events" ':').get? 1 = some "events")
    ∧ followRelation ctxC4 false ["item:events"] "acts" none [] 0
        = .ok ([⟨genAlias 0, "events",
                .onValAndCast "collection" "events"
                  ((Option.getD none "acts") ++ "." ++ relItemC4.field)
                  (genAlias 0 ++ "." ++ "id")⟩],
               amSet [] ["item:events"] (genAlias 0), 1) := by
  refine ⟨rfl, ?_, rfl, ?_⟩
  · exact (C4_a2o_scope ctxC4 false "item" [] "acts" none [] 0 relItemC4 rfl).1 rfl
  · exact (C4_a2o_scope ctxC4 false "item:events" [] "acts" none [] 0 relItemC4 rfl).2
      "events" ⟨"id"⟩ "collection" rfl rfl rfl

/-! ### `_or` with an empty-object member short-circuits (C3) -/

/-- C3: in both the join pass and the predicate pass, an `_or` entry whose
array contains an empty object is skipped in its entirety: processing the
entry list starting with such an `_or` node is identical to processing the
remaining entries, so no joins and no where clauses are emitted for any of
the node's children. -/
theorem C3_or_empty_short_circuit (ctx : Ctx) (subQuery : Bool) (fs : List Filter)
    (es : List (String × Filter)) (collection : String) (am : AliasMap) (ctr : Nat)
    (logical : Logic) (h : Filter.node [] ∈ fs) :
    addJoinsEntries ctx subQuery (("_or", Filter.arr fs) :: es) collection am ctr
      = addJoinsEntries ctx subQuery es collection am ctr
    ∧ awcEntries ctx subQuery am (("_or", Filter.arr fs) :: es) collection logical
      = awcEntries ctx subQuery am es collection logical := by
  have hemp : hasEmptyObj (Filter.arr fs) = true := by
    simp only [hasEmptyObj, List.any_eq_true]
    exact ⟨Filter.node [], h, by simp [jsKeysEmpty]⟩
  constructor
  · have hval : addJoinsValue ctx subQuery "_or" (Filter.arr fs) collection am ctr
        = .ok ([], am, ctr) := by
      rw [addJoinsValue.eq_def]
      simp [hemp]
    conv_lhs => rw [addJoinsEntries.eq_def]
    simp only [hval]
    cases hrest : addJoinsEntries ctx subQuery es collection am ctr with
    | error e => simp
    | ok t => obtain ⟨d2, am2, c2⟩ := t; simp
  · have hval : awcValue ctx subQuery am "_or" (Filter.arr fs) collection logical
        = .ok [] := by
      rw [awcValue.eq_def]
      simp [hemp]
    conv_lhs => rw [awcEntries.eq_def]
    simp only [hval]
    cases hrest : awcEntries ctx subQuery am es collection logical with
    | error e => simp
    | ok d2 => simp

theorem C3_or_empty_short_circuit_witness :
    (Filter.node [] ∈
      [Filter.node [], Filter.node [("name", Filter.leaf (FVal.vstr "v"))]])
    ∧ addJoinsEntries ({} : Ctx) false
        [("_or", Filter.arr [Filter.node [], Filter.node [("name", Filter.leaf (FVal.vstr "v"))]])]
        "pages" [] 0 = .ok ([], [], 0)
    ∧ awcEntries ({} : Ctx) false []
        [("_or", Filter.arr [Filter.node [], Filter.node [("name", Filter.leaf (FVal.vstr "v"))]])]
        "pages" Logic.and = .ok [] := by
  have hth := C3_or_empty_short_circuit ({} : Ctx) false
    [Filter.node [], Filter.node [("name", Filter.leaf (FVal.vstr "v"))]]
    [] "pages" [] 0 Logic.and (List.Mem.head _)
  refine ⟨List.Mem.head _, ?_, ?_⟩
  · rw [hth.1, addJoinsEntries.eq_def]
  · rw [hth.2, awcEntries.eq_def]

/-! ### To-many filters become existential subqueries (C1) -/

/-- The clause the to-many branch of the predicate pass emits, as a
function of the sentinel wrapper key on the value: `_none` selects
`whereNotIn`, `_some` selects `whereIn` on the unwrapped sub-filter, and a
bare nested filter defaults to `whereIn` on the value itself. -/
def toManyClause (logical : Logic) (pk : PkExpr) (relation : Relation) (value : Filter) :
    WClause :=
  match firstEntry value with
  | some ("_none", sub) => .wNotInSub logical pk ⟨relation.collection, relation.field, sub⟩
  | some ("_some", sub) => .wInSub logical pk ⟨relation.collection, relation.field, sub⟩
  | _ => .wInSub logical pk ⟨relation.collection, relation.field, value⟩

/-- C1: a filter leaf whose first path segment resolves to a to-many
relation (o2m or o2a), compiled outside a subquery or with further path
segments, emits exactly one clause: the parent primary key (cast to
CHAR(255) for o2a) compared with `IN` / `NOT IN` against the captured
existential subquery, `NOT IN` when the value's first key is `_none`, `IN`
for `_some` or a bare nested filter; and running the captured subquery
builder selects the non-null foreign-key column from the related
collection and applies the sub-filter to it as a subquery. -/
theorem C1_to_many_existential_subquery (ctx : Ctx) (subQuery : Bool) (am : AliasMap)
    (key : String) (value : Filter) (collection : String) (logical : Logic)
    (relation : Relation) (rt : RelType) (rc : String) (ci : CollectionInfo)
    (hk1 : key ≠ "_or") (hk2 : key ≠ "_and")
    (hrel : ctx.relationInfo collection
        ((jsSplit ((getFilterPath key value).headD "") ':').headD "") = some (relation, rt))
    (hrt : rt = RelType.o2m ∨ rt = RelType.o2a)
    (hcond : subQuery = false ∨ (getFilterPath key value).length > 1)
    (hrc : relation.related_collection = some rc)
    (hci : ctx.getCollection rc = some ci) :
    awcValue ctx subQuery am key value collection logical =
      .ok [toManyClause logical
            (if rt = RelType.o2a then .cast (collection ++ "." ++ ci.primary)
             else .col (collection ++ "." ++ ci.primary)) relation value]
    ∧ runSubQueryBuilder ctx ⟨relation.collection, relation.field, value⟩ 0
        = applyQuery ctx relation.collection
            { selects := [(relation.field, relation.collection ++ "." ++ relation.field)],
              fromT := some relation.collection,
              wheres := [.wNotNull .and (relation.collection ++ "." ++ relation.field)] }
            { filter := some value } true 0 := by
  refine ⟨?_, rfl⟩
  have hrel2 := hrel
  simp only [List.headD_eq_head?] at hrel2
  rw [awcValue.eq_def]
  rcases hrt with h | h <;> subst h <;>
    rcases hcond with hc | hc <;>
      simp [hk1, hk2, hc, hrel2, hrc, hci, rtScalarish, toManyClause] <;>
        (try subst hc) <;>
          (split <;> rfl)

/-- A minimal schema for the C1 witness: `pages` has an o2m relation
`children` (the inverse of `children.page_id`). -/
def relChildrenC1 : Relation :=
  { collection := "children", field := "page_id", related_collection := some "pages" }

def ctxC1 : Ctx :=
  { relationInfo := fun c f =>
      if c = "pages" ∧ f = "children" then some (relChildrenC1, .o2m) else none,
    getCollection := fun c => if c = "pages" then some ⟨"id"⟩ else none }

def someFilterC1 : Filter :=
  .node [("_some", .node [("name", .node [("_eq", .leaf (FVal.vstr "x"))])])]

theorem C1_to_many_existential_subquery_witness :
    awcValue ctxC1 false [] "children" someFilterC1 "pages" Logic.and
      = .ok [toManyClause Logic.and (.col ("pages" ++ "." ++ "id")) relChildrenC1 someFilterC1]
    ∧ runSubQueryBuilder ctxC1 ⟨"children", "page_id", someFilterC1⟩ 0
        = applyQuery ctxC1 "children"
            { selects := [("page_id", "children" ++ "." ++ "page_id")],
              fromT := some "children",
              wheres := [.wNotNull .and ("children" ++ "." ++ "page_id")] }
            { filter := some someFilterC1 } true 0 :=
  C1_to_many_existential_subquery ctxC1 false [] "children" someFilterC1 "pages" Logic.and
    relChildrenC1 RelType.o2m "pages" ⟨"id"⟩ (by decide) (by decide) rfl (Or.inl rfl)
    (Or.inl rfl) rfl rfl

/-! ### Operator validation (C5) -/

/-- The scalar / m2o / a2o branch of the predicate pass for a
single-segment path (`filterPath.length === 1`, lines 382-388): the leaf
validates its operator against the target field's type and only then
applies the comparison. -/
lemma awcValue_scalar_single (ctx : Ctx) (subQuery : Bool) (am : AliasMap) (key : String)
    (value : Filter) (collection : String) (logical : Logic) (fi : FieldInfo)
    (hk1 : key ≠ "_or") (hk2 : key ≠ "_and")
    (hpath : getFilterPath key value = [key])
    (hrt : rtScalarish (ctx.relationInfo collection ((jsSplit key ':').headD "")) = true)
    (hfield : ctx.getField collection (stripFunction key) = some fi) :
    awcValue ctx subQuery am key value collection logical =
      (match validateFilterOperator ctx fi.type (getOperation key value).1 fi.special with
       | .error e => .error e
       | .ok _ => .ok (applyFilterToQuery ctx (collection ++ "." ++ key)
                        (getOperation key value).1 (filterToFVal (getOperation key value).2)
                        logical none)) := by
  have hrt2 := hrt
  simp only [List.headD_eq_head?] at hrt2
  rw [awcValue.eq_def]
  simp [hk1, hk2, hpath, hrt2, hfield]

/-- The scalar / m2o / a2o branch of the predicate pass for a
multi-segment path (`filterPath.length > 1`, lines 372-381): the column is
resolved through the alias map, the target field is looked up on the
target collection, its operator is validated, and only then is the
comparison applied against the resolved column. -/
lemma awcValue_scalar_multi (ctx : Ctx) (subQuery : Bool) (am : AliasMap) (key : String)
    (value : Filter) (collection : String) (logical : Logic) (fi : FieldInfo)
    (columnPath targetCollection : String)
    (hk1 : key ≠ "_or") (hk2 : key ≠ "_and")
    (hrt : rtScalarish (ctx.relationInfo collection
        ((jsSplit ((getFilterPath key value).headD "") ':').headD "")) = true)
    (hlen : (getFilterPath key value).length > 1)
    (hcp : getColumnPath ctx am (getFilterPath key value) collection
        = some (columnPath, targetCollection))
    (hfield : ctx.getField targetCollection
        (stripFunction ((getFilterPath key value).getLastD "")) = some fi) :
    awcValue ctx subQuery am key value collection logical =
      (match validateFilterOperator ctx fi.type (getOperation key value).1 fi.special with
       | .error e => .error e
       | .ok _ => .ok (applyFilterToQuery ctx columnPath (getOperation key value).1
                        (filterToFVal (getOperation key value).2) logical
                        (some targetCollection))) := by
  have hrt2 := hrt
  simp only [List.headD_eq_head?] at hrt2
  have hfield2 := hfield
  simp only [List.getLastD_eq_getLast?] at hfield2
  rw [awcValue.eq_def]
  simp [hk1, hk2, hlen, hrt2, hcp, hfield2]

/-- The operator-set table modelled from the spec:
`getFilterOperatorsForType` (shared utils, not part of this slice) is,
per the spec, a pure type → allowed-operator-set lookup; this concrete
table gives the numeric types their comparison/range operators (and no
substring operators) and `hash` its null/empty checks, which is all the
counterexample consumes. -/
def ctxC5 : Ctx :=
  { getField := fun c f =>
      if c = "articles" ∧ f = "secret_token" then some ⟨"integer", []⟩ else none,
    getFilterOperatorsForType := fun t =>
      if t = "integer" then
        ["eq", "neq", "lt", "lte", "gt", "gte", "between", "nbetween", "null", "nnull",
         "in", "nin"]
      else if t = "hash" then ["null", "nnull", "empty", "nempty"] else [] }

/-- C5 counterexample: the invalid-query error raised for a disallowed
operator names the field's type and the operator but does not name the
field: filtering the concealed-free integer field `secret_token` with
`_contains` produces a message in which `secret_token` does not occur. -/
theorem C5_error_names_no_field_counterexample :
    awcValue ctxC5 false [] "secret_token"
        (Filter.node [("_contains", Filter.leaf (FVal.vstr "abc"))]) "articles" Logic.and
      = .error (.invalidQuery
          "\"integer\" field type does not contain the \"_contains\" filter operator")
    ∧ strContainsB
        "\"integer\" field type does not contain the \"_contains\" filter operator"
        "secret_token" = false
    ∧ strContainsB
        "\"integer\" field type does not contain the \"_contains\" filter operator"
        "integer" = true
    ∧ strContainsB
        "\"integer\" field type does not contain the \"_contains\" filter operator"
        "_contains" = true := by
  refine ⟨?_, by decide, by decide, by decide⟩
  rw [awcValue_scalar_single ctxC5 false [] "secret_token"
    (Filter.node [("_contains", Filter.leaf (FVal.vstr "abc"))]) "articles" Logic.and
    ⟨"integer", []⟩ (by decide) (by decide) rfl rfl rfl]
  rfl

/-- C5 (amended): for a leaf predicate the compiler validates the
requested operator against the allowed-operator set for the target field's
declared type and, for fields carrying the `conceal` marker, additionally
against the `hash` type's set; on failure it raises an invalid-query error
whose message names the type and the operator (the conceal variant names
only the operator) — not the field — and the leaf contributes no WHERE
clause because compilation aborts with the error. -/
theorem C5_operator_validation (ctx : Ctx) (ty filterOperator : String)
    (special : List String) :
    (((ctx.getFilterOperatorsForType ty).contains
        (if strStartsWith filterOperator "_" then strDrop1 filterOperator
         else filterOperator) = false) →
      validateFilterOperator ctx ty filterOperator special
        = .error (.invalidQuery (typeErrMsg ty
            (if strStartsWith filterOperator "_" then strDrop1 filterOperator
             else filterOperator))))
    ∧ (((ctx.getFilterOperatorsForType ty).contains
          (if strStartsWith filterOperator "_" then strDrop1 filterOperator
           else filterOperator) = true) →
       special.contains "conceal" = true →
       ((ctx.getFilterOperatorsForType "hash").contains
          (if strStartsWith filterOperator "_" then strDrop1 filterOperator
           else filterOperator) = false) →
      validateFilterOperator ctx ty filterOperator special
        = .error (.invalidQuery (concealErrMsg
            (if strStartsWith filterOperator "_" then strDrop1 filterOperator
             else filterOperator))))
    ∧ (∀ (subQuery : Bool) (am : AliasMap) (key : String) (value : Filter)
         (collection : String) (logical : Logic) (fi : FieldInfo) (e : Err),
        key ≠ "_or" → key ≠ "_and" →
        getFilterPath key value = [key] →
        rtScalarish (ctx.relationInfo collection ((jsSplit key ':').headD "")) = true →
        ctx.getField collection (stripFunction key) = some fi →
        validateFilterOperator ctx fi.type (getOperation key value).1 fi.special = .error e →
        awcValue ctx subQuery am key value collection logical = .error e)
    ∧ (∀ (subQuery : Bool) (am : AliasMap) (key : String) (value : Filter)
         (collection : String) (logical : Logic) (fi : FieldInfo)
         (columnPath targetCollection : String) (e : Err),
        key ≠ "_or" → key ≠ "_and" →
        rtScalarish (ctx.relationInfo collection
          ((jsSplit ((getFilterPath key value).headD "") ':').headD "")) = true →
        (getFilterPath key value).length > 1 →
        getColumnPath ctx am (getFilterPath key value) collection
          = some (columnPath, targetCollection) →
        ctx.getField targetCollection
          (stripFunction ((getFilterPath key value).getLastD "")) = some fi →
        validateFilterOperator ctx fi.type (getOperation key value).1 fi.special = .error e →
        awcValue ctx subQuery am key value collection logical = .error e) := by
  refine ⟨?_, ?_, ?_, ?_⟩
  · intro hnot
    unfold validateFilterOperator
    simp at hnot
    simp [hnot]
  · intro hin hconceal hhash
    unfold validateFilterOperator
    simp at hin hconceal hhash
    simp [hin, hconceal, hhash]
  · intro subQuery am key value collection logical fi e hk1 hk2 hpath hrt hfield hval
    rw [awcValue_scalar_single ctx subQuery am key value collection logical fi
      hk1 hk2 hpath hrt hfield, hval]
  · intro subQuery am key value collection logical fi columnPath targetCollection e
      hk1 hk2 hrt hlen hcp hfield hval
    rw [awcValue_scalar_multi ctx subQuery am key value collection logical fi
      columnPath targetCollection hk1 hk2 hrt hlen hcp hfield, hval]

/-- A schema for the multi-segment part of the C5 witness: `pages.author`
is an m2o relation to `authors`, whose `email` field has type `integer`
(so `_contains` is rejected by the same modelled operator table). -/
def relAuthorC5 : Relation :=
  { collection := "pages", field := "author", related_collection := some "authors" }

def ctxC5m : Ctx :=
  { relationInfo := fun c f =>
      if c = "pages" ∧ f = "author" then some (relAuthorC5, .m2o) else none,
    getField := fun c f =>
      if c = "authors" ∧ f = "email" then some ⟨"integer", []⟩ else none,
    getFilterOperatorsForType := ctxC5.getFilterOperatorsForType }

theorem C5_operator_validation_witness :
    validateFilterOperator ctxC5 "integer" "_contains" []
      = .error (.invalidQuery (typeErrMsg "integer" "contains"))
    ∧ validateFilterOperator ctxC5 "integer" "_gt" ["conceal"]
      = .error (.invalidQuery (concealErrMsg "gt"))
    ∧ awcValue ctxC5 false [] "secret_token"
        (Filter.node [("_contains", Filter.leaf (FVal.vstr "abc"))]) "articles" Logic.and
      = .error (.invalidQuery (typeErrMsg "integer" "contains"))
    ∧ awcValue ctxC5m false [(["author", "email"], "alias0")] "author"
        (Filter.node [("email", Filter.node [("_contains", Filter.leaf (FVal.vstr "abc"))])])
        "pages" Logic.and
      = .error (.invalidQuery (typeErrMsg "integer" "contains")) := by
  have h := C5_operator_validation ctxC5 "integer" "_contains" []
  have h2 := C5_operator_validation ctxC5 "integer" "_gt" ["conceal"]
  have hm := C5_operator_validation ctxC5m "integer" "_contains" []
  refine ⟨h.1 (by decide), h2.2.1 (by decide) (by decide) (by decide), ?_, ?_⟩
  · exact h.2.2.1 false [] "secret_token"
      (Filter.node [("_contains", Filter.leaf (FVal.vstr "abc"))]) "articles" Logic.and
      ⟨"integer", []⟩ _ (by decide) (by decide) rfl rfl rfl rfl
  · exact hm.2.2.2 false [(["author", "email"], "alias0")] "author"
      (Filter.node [("email", Filter.node [("_contains", Filter.leaf (FVal.vstr "abc"))])])
      "pages" Logic.and ⟨"integer", []⟩ "alias0.email" "authors" _
      (by decide) (by decide) rfl (by decide) rfl rfl rfl

/-! ### `_in` / `_between` value handling (C7) -/

/-- C7 counterexample: `_between` checks the two-bound requirement before
comma-splitting, so the comma-joined string `"1,5"` (JavaScript length 3)
emits no clause while the equivalent literal sequence `["1", "5"]` emits a
`whereBetween` — the two forms do not produce identical predicates. -/
theorem C7_between_string_counterexample :
    applyFilterToQuery {} "articles.title" "_between" (FVal.vstr "1,5") Logic.and none = []
    ∧ applyFilterToQuery {} "articles.title" "_between"
        (FVal.varr [Prim.pstr "1", Prim.pstr "5"]) Logic.and none
      = [.wBetween Logic.and "articles.title" (FVal.varr [Prim.pstr "1", Prim.pstr "5"])]
    ∧ ([] : List WClause)
      ≠ [.wBetween Logic.and "articles.title" (FVal.varr [Prim.pstr "1", Prim.pstr "5"])] := by
  refine ⟨rfl, rfl, ?_⟩
  simp

/-- C7 (amended): `_in` accepts both a literal sequence and a comma-joined
string and produces identical compiled predicates when the value coercion
leaves both forms unchanged (i.e. the field triggers no numeric or date
coercion); `_between` and `_nbetween` emit a clause only when the coerced
value has length exactly two — the check runs before any comma-splitting,
so other-than-two bounds (including most comma-joined strings) are
silently ignored, not an error. -/
theorem C7_in_between_value_handling (ctx : Ctx) (key : String) (logical : Logic)
    (orig : Option String) (s : String) (v : FVal) :
    (coerceCompareValue ctx key orig (FVal.vstr s) = FVal.vstr s →
     coerceCompareValue ctx key orig (FVal.varr ((jsSplit s ',').map Prim.pstr))
        = FVal.varr ((jsSplit s ',').map Prim.pstr) →
     applyFilterToQuery ctx key "_in" (FVal.vstr s) logical orig
        = applyFilterToQuery ctx key "_in" (FVal.varr ((jsSplit s ',').map Prim.pstr))
            logical orig)
    ∧ (jsLength (coerceCompareValue ctx key orig v) ≠ some 2 →
        applyFilterToQuery ctx key "_between" v logical orig = []
        ∧ applyFilterToQuery ctx key "_nbetween" v logical orig = []) := by
  constructor
  · intro hc1 hc2
    unfold applyFilterToQuery
    simp [hc1, hc2, splitIfString]
  · intro hlen
    by_cases hv : v = FVal.vundef
    · subst hv
      unfold applyFilterToQuery
      simp
    · unfold applyFilterToQuery
      simp [hv, hlen]

theorem C7_in_between_value_handling_witness :
    coerceCompareValue {} "articles.title" none (FVal.vstr "a,b") = FVal.vstr "a,b"
    ∧ coerceCompareValue {} "articles.title" none
        (FVal.varr ((jsSplit "a,b" ',').map Prim.pstr))
        = FVal.varr ((jsSplit "a,b" ',').map Prim.pstr)
    ∧ applyFilterToQuery {} "articles.title" "_in" (FVal.vstr "a,b") Logic.and none
        = applyFilterToQuery {} "articles.title" "_in"
            (FVal.varr ((jsSplit "a,b" ',').map Prim.pstr)) Logic.and none
    ∧ jsLength (coerceCompareValue {} "articles.title" none (FVal.vstr "1,5")) ≠ some 2
    ∧ applyFilterToQuery {} "articles.title" "_between" (FVal.vstr "1,5") Logic.and none = []
    ∧ applyFilterToQuery {} "articles.title" "_nbetween" (FVal.vstr "1,5") Logic.and none
        = [] := by
  have h1 := C7_in_between_value_handling {} "articles.title" Logic.and none "a,b"
    (FVal.vstr "1,5")
  have h2 := C7_in_between_value_handling {} "articles.title" Logic.and none "a,b"
    (FVal.vstr "1,5")
  exact ⟨rfl, rfl, h1.1 rfl rfl, by decide, (h2.2 (by decide)).1, (h2.2 (by decide)).2⟩

/-! ### Free-text search (C8) -/

/-- C8: the search compiler appends exactly one AND-conjoined group whose
members are the OR-attached per-field predicates, iterating every field of
the collection in order; per field: text-family types contribute a
lower-cased case-insensitive substring predicate, numeric-family types an
equality predicate only when the term parses as a number, `uuid` fields an
equality predicate only when the term is a syntactically valid UUID, and
every other type contributes nothing. -/
theorem C8_search_predicates (ctx : Ctx) (searchQuery collection : String) :
    (applySearch ctx searchQuery collection
      = [.wGroup .and ((ctx.getFields collection).flatMap
          (searchFieldClause ctx searchQuery collection))])
    ∧ (∀ name fi, (fi.type = "text" ∨ fi.type = "string") →
        searchFieldClause ctx searchQuery collection (name, fi)
          = [.wRaw .or "LOWER(??) LIKE ?"
              [FVal.vstr (collection ++ "." ++ name),
               FVal.vstr ("%" ++ jsToLower searchQuery ++ "%")]])
    ∧ (∀ name fi n,
        (fi.type = "bigInteger" ∨ fi.type = "integer" ∨ fi.type = "decimal"
          ∨ fi.type = "float") →
        strToNumber searchQuery = Prim.pnum n →
        searchFieldClause ctx searchQuery collection (name, fi)
          = [.wEq .or (collection ++ "." ++ name) (FVal.vnum n)])
    ∧ (∀ name fi,
        (fi.type = "bigInteger" ∨ fi.type = "integer" ∨ fi.type = "decimal"
          ∨ fi.type = "float") →
        strToNumber searchQuery = Prim.pnan →
        searchFieldClause ctx searchQuery collection (name, fi) = [])
    ∧ (∀ name fi, fi.type = "uuid" → ctx.uuidValidate searchQuery = true →
        searchFieldClause ctx searchQuery collection (name, fi)
          = [.wEq .or (collection ++ "." ++ name) (FVal.vstr searchQuery)])
    ∧ (∀ name fi, fi.type = "uuid" → ctx.uuidValidate searchQuery = false →
        searchFieldClause ctx searchQuery collection (name, fi) = [])
    ∧ (∀ name fi,
        fi.type ≠ "text" → fi.type ≠ "string" →
        fi.type ≠ "bigInteger" → fi.type ≠ "integer" → fi.type ≠ "decimal" →
        fi.type ≠ "float" → fi.type ≠ "uuid" →
        searchFieldClause ctx searchQuery collection (name, fi) = []) := by
  refine ⟨?_, ?_, ?_, ?_, ?_, ?_, ?_⟩
  · have hlist : ∀ fs : List (String × FieldInfo),
        searchFieldClauses ctx searchQuery collection fs
          = fs.flatMap (searchFieldClause ctx searchQuery collection) := by
      intro fs
      induction fs with
      | nil => rfl
      | cons nf rest ih => simp [searchFieldClauses, ih]
    unfold applySearch
    rw [hlist]
  · rintro name fi (h | h) <;> simp [searchFieldClause, h]
  · rintro name fi n (h | h | h | h) hnum <;> simp [searchFieldClause, h, hnum]
  · rintro name fi (h | h | h | h) hnan <;> simp [searchFieldClause, h, hnan]
  · intro name fi h hval
    simp [searchFieldClause, h, hval]
  · intro name fi h hval
    simp [searchFieldClause, h, hval]
  · intro name fi h1 h2 h3 h4 h5 h6 h7
    simp [searchFieldClause, h1, h2, h3, h4, h5, h6, h7]

/-- A schema with one text field and one integer field for the C8 witness,
matching the spec's example of searching for `"42"`. -/
def ctxC8 : Ctx :=
  { getFields := fun c =>
      if c = "things" then [("title", ⟨"text", []⟩), ("amount", ⟨"integer", []⟩)] else [] }

theorem C8_search_predicates_witness :
    applySearch ctxC8 "42" "things"
      = [.wGroup .and ((ctxC8.getFields "things").flatMap
          (searchFieldClause ctxC8 "42" "things"))]
    ∧ searchFieldClause ctxC8 "42" "things" ("title", ⟨"text", []⟩)
        = [.wRaw .or "LOWER(??) LIKE ?"
            [FVal.vstr ("things" ++ "." ++ "title"),
             FVal.vstr ("%" ++ jsToLower "42" ++ "%")]]
    ∧ searchFieldClause ctxC8 "42" "things" ("amount", ⟨"integer", []⟩)
        = [.wEq .or ("things" ++ "." ++ "amount") (FVal.vnum 42)]
    ∧ searchFieldClause ctxC8 "42" "things" ("meta", ⟨"json", []⟩) = [] := by
  have h := C8_search_predicates ctxC8 "42" "things"
  exact ⟨h.1,
    h.2.1 "title" ⟨"text", []⟩ (Or.inl rfl),
    h.2.2.1 "amount" ⟨"integer", []⟩ 42 (Or.inr (Or.inl rfl)) (by decide),
    h.2.2.2.2.2.2 "meta" ⟨"json", []⟩ (by decide) (by decide) (by decide) (by decide)
      (by decide) (by decide) (by decide)⟩

end Directus
